import Mathlib

/-!
Shallow embedding of `physics.py` (`quasi_steady_flap`) and the sweep driver of
`api.py` (`sweep_steps`) from the OscillatingAirfoilSim repository, together with
theorems settling the frozen specification claims.

Numbers are modelled as exact real numbers.  Division by zero in Lean's reals is
total (yielding 0); the places where Python scalar arithmetic raises
`ZeroDivisionError` (`S/c` with `c = 0`, `2π/(π·AR)` with `AR = 0`, the
lift-slope division with a vanishing denominator, and `np.arange` with zero
step) are modelled explicitly through `Except`.  IEEE special-value propagation
in the numpy elementwise stage (inf/NaN arising from the unguarded `c/U`
division) is modelled separately by the `FV` carrier below.
-/

/-- The parameter record consumed by `quasi_steady_flap` (all plain scalars). -/
structure Params where
  rho : ℝ
  S : ℝ
  c : ℝ
  f : ℝ
  stroke_amp : ℝ
  pitch_amp : ℝ
  pitch_phase : ℝ
  dt : ℝ
  t_end : ℝ
  CL_alpha : ℝ
  Uref : ℝ
  K_am : ℝ
  CD0 : ℝ
  CD_alpha : ℝ

/-- Numpy `np.deg2rad`. -/
noncomputable def deg2rad (x : ℝ) : ℝ := x * (Real.pi / 180)

/-- The baseline parameter dictionary of `run_simulation.py`. -/
noncomputable def base_params : Params :=
  { rho := 1.225
    S := 2e-4
    c := 0.004
    f := 150
    stroke_amp := 0.01
    pitch_amp := deg2rad 45
    pitch_phase := deg2rad 180
    dt := 1e-4
    t_end := 0.03
    CL_alpha := 2 * Real.pi
    Uref := 2.0
    K_am := 0.05
    CD0 := 0.1
    CD_alpha := 1.5 }

namespace QSF

/-- Source: `omega = 2 * np.pi * f` (physics.py line 27). -/
noncomputable def omega (p : Params) : ℝ := 2 * Real.pi * p.f

/-- Source: `AR = (S / c) / c` (physics.py line 19). -/
noncomputable def AR (p : Params) : ℝ := (p.S / p.c) / p.c

/-- Source: `CL_alpha = params["CL_alpha"] / (1 + 2*np.pi / (np.pi * AR))` (line 20). -/
noncomputable def CL_alpha_eff (p : Params) : ℝ :=
  p.CL_alpha / (1 + 2 * Real.pi / (Real.pi * AR p))

/-- Number of samples of `np.arange(0, t_end + dt, dt)` in exact arithmetic:
`max 0 ⌈(t_end + dt)/dt⌉` (the `dt = 0` case never reaches this point, see
`quasi_steady_flap`). -/
noncomputable def numSamples (p : Params) : ℕ :=
  (Int.ceil ((p.t_end + p.dt) / p.dt)).toNat

/-- The time grid `t = np.arange(0, t_end + dt, dt)` (line 25). -/
noncomputable def tgrid (p : Params) : List ℝ :=
  (List.range (numSamples p)).map (fun (i : ℕ) => (i : ℝ) * p.dt)

/-- Source: `x_pos = stroke_amp * np.sin(omega * t)` pointwise in the time value. -/
noncomputable def x_pos (p : Params) (tv : ℝ) : ℝ :=
  p.stroke_amp * Real.sin (omega p * tv)

/-- Source: `U = Uref + stroke_amp * c * omega * np.cos(omega * t)` pointwise. -/
noncomputable def U (p : Params) (tv : ℝ) : ℝ :=
  p.Uref + p.stroke_amp * p.c * omega p * Real.cos (omega p * tv)

/-- Source: `alpha = pitch_amp * (np.sin(omega * t + pitch_phase) + 1) / 2` pointwise. -/
noncomputable def alpha (p : Params) (tv : ℝ) : ℝ :=
  p.pitch_amp * (Real.sin (omega p * tv + p.pitch_phase) + 1) / 2

/-- Source: `alpha_dot = omega * pitch_amp * np.cos(omega * t + pitch_phase)` pointwise. -/
noncomputable def alpha_dot (p : Params) (tv : ℝ) : ℝ :=
  omega p * p.pitch_amp * Real.cos (omega p * tv + p.pitch_phase)

/-- Source: `alpha_ddot = -omega**2 * pitch_amp * np.sin(omega * t + pitch_phase)`. -/
noncomputable def alpha_ddot (p : Params) (tv : ℝ) : ℝ :=
  -(omega p) ^ 2 * p.pitch_amp * Real.sin (omega p * tv + p.pitch_phase)

/-- Source: `theta_deg = np.rad2deg(alpha)` pointwise. -/
noncomputable def theta_deg (p : Params) (tv : ℝ) : ℝ :=
  alpha p tv * (180 / Real.pi)

/-- Source: `CL_trans = CL_alpha * alpha` pointwise (line 50, with the corrected slope). -/
noncomputable def CL_trans (p : Params) (tv : ℝ) : ℝ :=
  CL_alpha_eff p * alpha p tv

/-- Source: `S_d = 1 + k * np.sin(np.abs(alpha))**2` with `k = 0.5` (lines 52-53). -/
noncomputable def S_d (p : Params) (tv : ℝ) : ℝ :=
  1 + 0.5 * Real.sin |alpha p tv| ^ 2

/-- Source: `CL_trans_LEV = CL_trans * S_d` (line 54). -/
noncomputable def CL_trans_LEV (p : Params) (tv : ℝ) : ℝ :=
  CL_trans p tv * S_d p tv

/-- Source: `CL_rot = k_rot * (np.pi/2) * (c / U) * alpha_dot` with `k_rot = 0.1`. -/
noncomputable def CL_rot (p : Params) (tv : ℝ) : ℝ :=
  0.1 * (Real.pi / 2) * (p.c / U p tv) * alpha_dot p tv

/-- Source: `CL_total = CL_trans_LEV + CL_rot` (line 59). -/
noncomputable def CL_total (p : Params) (tv : ℝ) : ℝ :=
  CL_trans_LEV p tv + CL_rot p tv

/-- Source: `CD = CD0 + CD_alpha * alpha**2` (line 64). -/
noncomputable def CD (p : Params) (tv : ℝ) : ℝ :=
  p.CD0 + p.CD_alpha * alpha p tv ^ 2

/-- Source: `q = 0.5 * rho * U**2` (line 69). -/
noncomputable def q (p : Params) (tv : ℝ) : ℝ :=
  0.5 * p.rho * U p tv ^ 2

/-- Source: `L_trans = q * S * CL_trans_LEV` (line 71). -/
noncomputable def L_trans (p : Params) (tv : ℝ) : ℝ :=
  q p tv * p.S * CL_trans_LEV p tv

/-- Source: `L_rot = q * S * CL_rot` (line 72). -/
noncomputable def L_rot (p : Params) (tv : ℝ) : ℝ :=
  q p tv * p.S * CL_rot p tv

/-- Source: `L_added = K_am * 0.25 * np.pi * rho * c**2 * S * alpha_ddot` (line 73). -/
noncomputable def L_added (p : Params) (tv : ℝ) : ℝ :=
  p.K_am * 0.25 * Real.pi * p.rho * p.c ^ 2 * p.S * alpha_ddot p tv

/-- Source: `L = L_trans + L_rot + L_added` (line 75). -/
noncomputable def L (p : Params) (tv : ℝ) : ℝ :=
  L_trans p tv + L_rot p tv + L_added p tv

/-- Source: `D = q * S * CD` (line 76). -/
noncomputable def D (p : Params) (tv : ℝ) : ℝ :=
  q p tv * p.S * CD p tv

/-- Source: `P = D * U` before the floor substitution (line 78). -/
noncomputable def P_raw (p : Params) (tv : ℝ) : ℝ :=
  D p tv * U p tv

open Classical in
/-- Source: `P[P == 0] = 1e-12` (line 79): exactly-zero samples replaced by the floor. -/
noncomputable def P (p : Params) (tv : ℝ) : ℝ :=
  if P_raw p tv = 0 then 1e-12 else P_raw p tv

/-- Source: `eta = (L * U) / P` using the floored `P` (line 81). -/
noncomputable def eta (p : Params) (tv : ℝ) : ℝ :=
  (L p tv * U p tv) / P p tv

/-- The returned dict of time histories (lines 83-95). -/
structure Bundle where
  t : List ℝ
  L : List ℝ
  D : List ℝ
  P : List ℝ
  eta : List ℝ
  alpha : List ℝ
  theta_deg : List ℝ
  x_pos : List ℝ
  U : List ℝ
  CL : List ℝ
  CD : List ℝ

/-- The bundle produced by the elementwise stage of `quasi_steady_flap`. -/
noncomputable def mkBundle (p : Params) : Bundle :=
  { t := tgrid p
    L := (tgrid p).map (L p)
    D := (tgrid p).map (D p)
    P := (tgrid p).map (P p)
    eta := (tgrid p).map (eta p)
    alpha := (tgrid p).map (alpha p)
    theta_deg := (tgrid p).map (theta_deg p)
    x_pos := (tgrid p).map (x_pos p)
    U := (tgrid p).map (U p)
    CL := (tgrid p).map (CL_total p)
    CD := (tgrid p).map (CD p) }

/-- The ways Python scalar arithmetic aborts `quasi_steady_flap` before any
output exists (all surface as `ZeroDivisionError`). -/
inductive EvalErr where
  | zeroDivisionError : EvalErr
deriving DecidableEq

open Classical in
/-- Evaluation of `quasi_steady_flap(params)`.  Python raises `ZeroDivisionError` at
`(S / c) / c` when `c = 0` (line 19), at `2*np.pi / (np.pi * AR)` when
`np.pi * AR = 0` and at the lift-slope division when its denominator is zero
(line 20), and inside `np.arange` when `dt = 0` (line 25); otherwise the
elementwise numpy stage runs to completion and the bundle is returned. -/
noncomputable def quasi_steady_flap (p : Params) : Except EvalErr Bundle :=
  if p.c = 0 then .error .zeroDivisionError
  else if Real.pi * AR p = 0 then .error .zeroDivisionError
  else if 1 + 2 * Real.pi / (Real.pi * AR p) = 0 then .error .zeroDivisionError
  else if p.dt = 0 then .error .zeroDivisionError
  else .ok (mkBundle p)

end QSF

/-- IEEE-style extended value for the numpy elementwise stage: a finite real,
`±inf`, or `NaN`.  Rounding is not modelled; special-value creation and
propagation follow IEEE 754 as numpy implements it (elementwise division by
zero yields a signed infinity with a warning, `0 * inf` and `inf - inf` yield
`NaN`, and `NaN` propagates through every operation). -/
inductive FV where
  | num : ℝ → FV
  | pinf : FV
  | ninf : FV
  | nan : FV

namespace FV

noncomputable def add : FV → FV → FV
  | num x, num y => num (x + y)
  | num _, pinf => pinf
  | pinf, num _ => pinf
  | num _, ninf => ninf
  | ninf, num _ => ninf
  | pinf, pinf => pinf
  | ninf, ninf => ninf
  | _, _ => nan

open Classical in
/-- The sign-dependent result of multiplying the finite value `x` by `±inf`
(`pos` selects `+inf`); `0 * ±inf = NaN`. -/
noncomputable def infSign (x : ℝ) (pos : Bool) : FV :=
  if 0 < x then (if pos then pinf else ninf)
  else if x < 0 then (if pos then ninf else pinf)
  else nan

noncomputable def mul : FV → FV → FV
  | num x, num y => num (x * y)
  | num x, pinf => infSign x true
  | pinf, num y => infSign y true
  | num x, ninf => infSign x false
  | ninf, num y => infSign y false
  | pinf, pinf => pinf
  | pinf, ninf => ninf
  | ninf, pinf => ninf
  | ninf, ninf => pinf
  | _, _ => nan

open Classical in
/-- Division; a nonzero finite numerator over (positive) zero yields a signed
infinity, `0/0` yields `NaN` (numpy array semantics: no exception). -/
noncomputable def div : FV → FV → FV
  | num x, num y =>
      if y = 0 then (if 0 < x then pinf else if x < 0 then ninf else nan)
      else num (x / y)
  | num _, pinf => num 0
  | num _, ninf => num 0
  | pinf, num y => if 0 ≤ y then pinf else ninf
  | ninf, num y => if 0 ≤ y then ninf else pinf
  | _, _ => nan

noncomputable def sinF : FV → FV
  | num x => num (Real.sin x)
  | _ => nan

noncomputable def cosF : FV → FV
  | num x => num (Real.cos x)
  | _ => nan

noncomputable def absF : FV → FV
  | num x => num |x|
  | pinf => pinf
  | ninf => pinf
  | nan => nan

/-- Squaring, `x**2`. -/
noncomputable def sq : FV → FV
  | num x => num (x ^ 2)
  | pinf => pinf
  | ninf => pinf
  | nan => nan

/-- Numpy `np.rad2deg`. -/
noncomputable def rad2degF : FV → FV
  | num x => num (x * (180 / Real.pi))
  | pinf => pinf
  | ninf => ninf
  | nan => nan

open Classical in
/-- numpy's `P[P == 0] = 1e-12`: comparisons with `NaN` and `±inf` against `0`
are false, so only exactly-zero finite entries are replaced. -/
noncomputable def floorF : FV → FV
  | num x => if x = 0 then num 1e-12 else num x
  | v => v

def isFinite : FV → Prop
  | num _ => True
  | _ => False

end FV

/-!
The numpy elementwise stage of `quasi_steady_flap` re-expressed over the
`FV` carrier, mirroring the expression trees (and Python's left-associated
grouping) of physics.py lines 36-81; scalar subexpressions are finite reals.
Index `i` denotes the grid point `t_i = i * dt` (the grid itself is pure
finite arithmetic).
-/
namespace NF

noncomputable def t (p : Params) (i : ℕ) : FV := FV.num ((i : ℝ) * p.dt)

noncomputable def x_pos (p : Params) (i : ℕ) : FV :=
  FV.mul (FV.num p.stroke_amp)
    (FV.sinF (FV.mul (FV.num (QSF.omega p)) (t p i)))

noncomputable def U (p : Params) (i : ℕ) : FV :=
  FV.add (FV.num p.Uref)
    (FV.mul
      (FV.mul (FV.mul (FV.num p.stroke_amp) (FV.num p.c))
        (FV.num (QSF.omega p)))
      (FV.cosF (FV.mul (FV.num (QSF.omega p)) (t p i))))

noncomputable def alpha (p : Params) (i : ℕ) : FV :=
  FV.div
    (FV.mul (FV.num p.pitch_amp)
      (FV.add
        (FV.sinF (FV.add (FV.mul (FV.num (QSF.omega p)) (t p i))
          (FV.num p.pitch_phase)))
        (FV.num 1)))
    (FV.num 2)

noncomputable def alpha_dot (p : Params) (i : ℕ) : FV :=
  FV.mul (FV.mul (FV.num (QSF.omega p)) (FV.num p.pitch_amp))
    (FV.cosF (FV.add (FV.mul (FV.num (QSF.omega p)) (t p i))
      (FV.num p.pitch_phase)))

noncomputable def alpha_ddot (p : Params) (i : ℕ) : FV :=
  FV.mul (FV.mul (FV.num (-(QSF.omega p) ^ 2)) (FV.num p.pitch_amp))
    (FV.sinF (FV.add (FV.mul (FV.num (QSF.omega p)) (t p i))
      (FV.num p.pitch_phase)))

noncomputable def theta_deg (p : Params) (i : ℕ) : FV :=
  FV.rad2degF (alpha p i)

noncomputable def CL_trans (p : Params) (i : ℕ) : FV :=
  FV.mul (FV.num (QSF.CL_alpha_eff p)) (alpha p i)

noncomputable def S_d (p : Params) (i : ℕ) : FV :=
  FV.add (FV.num 1)
    (FV.mul (FV.num 0.5) (FV.sq (FV.sinF (FV.absF (alpha p i)))))

noncomputable def CL_trans_LEV (p : Params) (i : ℕ) : FV :=
  FV.mul (CL_trans p i) (S_d p i)

noncomputable def CL_rot (p : Params) (i : ℕ) : FV :=
  FV.mul
    (FV.mul (FV.mul (FV.num 0.1) (FV.num (Real.pi / 2)))
      (FV.div (FV.num p.c) (U p i)))
    (alpha_dot p i)

noncomputable def CL_total (p : Params) (i : ℕ) : FV :=
  FV.add (CL_trans_LEV p i) (CL_rot p i)

noncomputable def CD (p : Params) (i : ℕ) : FV :=
  FV.add (FV.num p.CD0) (FV.mul (FV.num p.CD_alpha) (FV.sq (alpha p i)))

noncomputable def q (p : Params) (i : ℕ) : FV :=
  FV.mul (FV.mul (FV.num 0.5) (FV.num p.rho)) (FV.sq (U p i))

noncomputable def L_trans (p : Params) (i : ℕ) : FV :=
  FV.mul (FV.mul (q p i) (FV.num p.S)) (CL_trans_LEV p i)

noncomputable def L_rot (p : Params) (i : ℕ) : FV :=
  FV.mul (FV.mul (q p i) (FV.num p.S)) (CL_rot p i)

noncomputable def L_added (p : Params) (i : ℕ) : FV :=
  FV.mul (FV.num (p.K_am * 0.25 * Real.pi * p.rho * p.c ^ 2 * p.S))
    (alpha_ddot p i)

noncomputable def L (p : Params) (i : ℕ) : FV :=
  FV.add (FV.add (L_trans p i) (L_rot p i)) (L_added p i)

noncomputable def D (p : Params) (i : ℕ) : FV :=
  FV.mul (FV.mul (q p i) (FV.num p.S)) (CD p i)

noncomputable def P_raw (p : Params) (i : ℕ) : FV :=
  FV.mul (D p i) (U p i)

noncomputable def P (p : Params) (i : ℕ) : FV :=
  FV.floorF (P_raw p i)

noncomputable def eta (p : Params) (i : ℕ) : FV :=
  FV.div (FV.mul (L p i) (U p i)) (P p i)

end NF

/-- Concrete parameters: unit chord/area, no stroke motion, unit free stream. -/
noncomputable def pOne : Params :=
  { rho := 1, S := 1, c := 1, f := 0, stroke_amp := 0, pitch_amp := 0,
    pitch_phase := 0, dt := 1, t_end := 0, CL_alpha := 1, Uref := 1,
    K_am := 0, CD0 := 0, CD_alpha := 0 }

/-- Concrete parameters with `t_end = 3` not a multiple of `dt = 2`. -/
noncomputable def pGrid : Params := { pOne with dt := 2, t_end := 3 }

/-- Witness for C4: at `pOne` with chord zeroed out, evaluation fails fast. -/
noncomputable def pZeroC : Params := { pOne with c := 0 }

/-- Parameters with a negative time step (claimed to be rejected). -/
noncomputable def pNegDt : Params := { pOne with dt := -1 }

/-- Parameters driving `U(t) = 0` at every sample. -/
noncomputable def pZeroU : Params := { pOne with Uref := 0 }

/-- Parameters with a negative pitch amplitude. -/
noncomputable def pNegPitch : Params := { pOne with pitch_amp := -1 }

/-- The body of a `/sweep_steps` request (api.py lines 37-44). -/
structure SweepStepsRequest where
  sweep_type : String
  base : ℝ
  freq_hz : ℝ
  pitch_deg : ℝ
  step : ℝ
  stroke_amp : ℝ
  t_end : ℝ

/-- The five swept values, in order (api.py lines 124-130). -/
noncomputable def sweepValues (r : SweepStepsRequest) : List ℝ :=
  [r.base - 2 * r.step, r.base - r.step, r.base, r.base + r.step,
   r.base + 2 * r.step]

/-- The parameter set evaluated for sweep value `v` (api.py lines 135-149):
`base_params` copied, `stroke_amp` and `t_end` overridden, then the branch on
`sweep_type == "pitch"` sets either the pitch amplitude or the frequency —
every identifier other than `"pitch"` takes the frequency branch. -/
noncomputable def sweepParamsFor (r : SweepStepsRequest) (v : ℝ) : Params :=
  if r.sweep_type = "pitch" then
    { base_params with
      stroke_amp := r.stroke_amp
      t_end := r.t_end
      pitch_amp := deg2rad v
      f := r.freq_hz }
  else
    { base_params with
      stroke_amp := r.stroke_amp
      t_end := r.t_end
      pitch_amp := deg2rad r.pitch_deg
      f := v }

/-- The sequence of core evaluations performed by the `/sweep_steps` endpoint
(api.py lines 135-151). -/
noncomputable def sweep_steps (r : SweepStepsRequest) :
    List (Except QSF.EvalErr QSF.Bundle) :=
  (sweepValues r).map (fun v => QSF.quasi_steady_flap (sweepParamsFor r v))

/-- A request with an axis identifier that is neither `"pitch"` nor
`"frequency"`. -/
noncomputable def rStroke : SweepStepsRequest :=
  { sweep_type := "stroke", base := 150, freq_hz := 150, pitch_deg := 45,
    step := 10, stroke_amp := 0.01, t_end := 0 }

/-- The concrete pitch-sweep request: base 45°, step 15°. -/
noncomputable def rPitch : SweepStepsRequest :=
  { sweep_type := "pitch", base := 45, freq_hz := 150, pitch_deg := 45,
    step := 15, stroke_amp := 0.01, t_end := 0.03 }


namespace QSF

/-- A successful evaluation always returns exactly `mkBundle p`. -/
theorem ok_inv {p : Params} {b : Bundle} (h : quasi_steady_flap p = .ok b) :
    b = mkBundle p := by
  unfold quasi_steady_flap at h
  split_ifs at h
  simp_all

/-- When no division-by-zero condition fires, evaluation succeeds. -/
theorem qsf_ok {p : Params} (hc : p.c ≠ 0) (hs : Real.pi * AR p ≠ 0)
    (hd : 1 + 2 * Real.pi / (Real.pi * AR p) ≠ 0) (hdt : p.dt ≠ 0) :
    quasi_steady_flap p = .ok (mkBundle p) := by
  unfold quasi_steady_flap
  split_ifs <;> simp_all

theorem tgrid_length (p : Params) : (tgrid p).length = numSamples p := by
  simp only [tgrid, List.length_map, List.length_range]

theorem map_tgrid_length (p : Params) (g : ℝ → ℝ) :
    ((tgrid p).map g).length = numSamples p := by
  simp only [tgrid, List.length_map, List.length_range]

/-- The `i`-th entry of the time grid is `i * dt`. -/
theorem tgrid_getD {p : Params} {i : ℕ} (h : i < numSamples p) :
    (tgrid p).getD i 0 = (i : ℝ) * p.dt := by
  rw [List.getD_eq_getElem _ _ (by simpa only [tgrid_length] using h)]
  simp only [tgrid, List.getElem_map, List.getElem_range]

/-- The `i`-th entry of an elementwise series is the pointwise function at
`i * dt`. -/
theorem seq_getD {p : Params} (g : ℝ → ℝ) {i : ℕ} (h : i < numSamples p) :
    ((tgrid p).map g).getD i 0 = g ((i : ℝ) * p.dt) := by
  rw [List.getD_eq_getElem _ _ (by simpa only [map_tgrid_length] using h)]
  simp only [tgrid, List.getElem_map, List.getElem_range]

theorem ceil_split (p : Params) (hdt : p.dt ≠ 0) :
    Int.ceil ((p.t_end + p.dt) / p.dt) = Int.ceil (p.t_end / p.dt) + 1 := by
  rw [add_div, div_self hdt, Int.ceil_add_one]

/-- With a positive step and nonnegative end time, `np.arange(0, t_end+dt, dt)`
has `⌈t_end/dt⌉ + 1` samples. -/
theorem numSamples_val (p : Params) (hdt : 0 < p.dt) (hte : 0 ≤ p.t_end) :
    numSamples p = (Int.ceil (p.t_end / p.dt)).toNat + 1 := by
  have h0 : (0 : ℤ) ≤ Int.ceil (p.t_end / p.dt) :=
    Int.ceil_nonneg (div_nonneg hte hdt.le)
  rw [numSamples, ceil_split p hdt.ne']
  omega

theorem numSamples_pos (p : Params) (hdt : 0 < p.dt) (hte : 0 ≤ p.t_end) :
    0 < numSamples p := by
  rw [numSamples_val p hdt hte]; omega

/-- The last grid entry is `⌈t_end/dt⌉ * dt`. -/
theorem tgrid_last (p : Params) (hdt : 0 < p.dt) (hte : 0 ≤ p.t_end) :
    (tgrid p).getD ((tgrid p).length - 1) 0 =
      ((Int.ceil (p.t_end / p.dt)).toNat : ℝ) * p.dt := by
  have hval := numSamples_val p hdt hte
  have hlt : (Int.ceil (p.t_end / p.dt)).toNat < numSamples p := by
    rw [hval]; omega
  rw [tgrid_length, hval]
  simpa using tgrid_getD hlt

end QSF


open QSF in
/-- C1: for every `Params` with `c ≠ 0` and `U[i] ≠ 0` at every grid point, the
returned sequences satisfy, at every index `i`:
`L[i] = 0.5·rho·U[i]²·S·(CL_trans_LEV[i] + CL_rot[i]) + K_am·0.25·π·rho·c²·S·alpha_ddot[i]`
with `CL_trans_LEV[i] = (CL_alpha/(1 + 2π/(π·AR)))·alpha[i]·(1 + 0.5·sin(|alpha[i]|)²)`,
`AR = S/c²`, `CL_rot[i] = 0.1·(π/2)·(c/U[i])·alpha_dot[i]`; the returned `CL`
equals `CL_trans_LEV + CL_rot` (no added-mass term); and
`D[i] = 0.5·rho·U[i]²·S·(CD0 + CD_alpha·alpha[i]²)`. -/
theorem C1_force_and_coefficient_formulas (p : Params) (b : Bundle)
    (hok : quasi_steady_flap p = .ok b) (_hc : p.c ≠ 0)
    (_hU : ∀ i < numSamples p, QSF.U p ((i : ℝ) * p.dt) ≠ 0) :
    ∀ i < numSamples p,
      b.L.getD i 0 =
        0.5 * p.rho * (b.U.getD i 0) ^ 2 * p.S *
            ((p.CL_alpha / (1 + 2 * Real.pi / (Real.pi * (p.S / p.c ^ 2))))
                * b.alpha.getD i 0
                * (1 + 0.5 * Real.sin |b.alpha.getD i 0| ^ 2)
              + 0.1 * (Real.pi / 2) * (p.c / b.U.getD i 0)
                * alpha_dot p ((i : ℝ) * p.dt))
          + p.K_am * 0.25 * Real.pi * p.rho * p.c ^ 2 * p.S
            * alpha_ddot p ((i : ℝ) * p.dt) ∧
      b.CL.getD i 0 =
        (p.CL_alpha / (1 + 2 * Real.pi / (Real.pi * (p.S / p.c ^ 2))))
            * b.alpha.getD i 0 * (1 + 0.5 * Real.sin |b.alpha.getD i 0| ^ 2)
          + 0.1 * (Real.pi / 2) * (p.c / b.U.getD i 0)
            * alpha_dot p ((i : ℝ) * p.dt) ∧
      b.D.getD i 0 =
        0.5 * p.rho * (b.U.getD i 0) ^ 2 * p.S *
          (p.CD0 + p.CD_alpha * (b.alpha.getD i 0) ^ 2) := by
  have hb := ok_inv hok
  subst hb
  intro i hi
  simp only [mkBundle, seq_getD _ hi]
  have hAR : (p.S / p.c) / p.c = p.S / p.c ^ 2 := by
    rw [div_div, ← pow_two]
  refine ⟨?_, ?_, ?_⟩
  · simp only [QSF.L, L_trans, L_rot, L_added, q, CL_trans_LEV, CL_trans,
      CL_alpha_eff, S_d, CL_rot, AR, hAR]
    ring
  · simp only [CL_total, CL_trans_LEV, CL_trans, CL_alpha_eff, S_d, CL_rot,
      AR, hAR]
  · simp only [QSF.D, q, CD]

theorem pOne_AR : QSF.AR pOne = 1 := by
  norm_num [QSF.AR, pOne]

theorem pOne_denom : 1 + 2 * Real.pi / (Real.pi * QSF.AR pOne) ≠ 0 := by
  rw [pOne_AR, mul_one, mul_div_assoc, div_self Real.pi_ne_zero]
  norm_num

theorem pOne_ok : QSF.quasi_steady_flap pOne = .ok (QSF.mkBundle pOne) := by
  refine QSF.qsf_ok ?_ ?_ pOne_denom ?_
  · norm_num [pOne]
  · rw [pOne_AR, mul_one]; exact Real.pi_ne_zero
  · norm_num [pOne]

theorem pOne_numSamples : QSF.numSamples pOne = 1 := by
  norm_num [QSF.numSamples, pOne]

theorem pOne_U (tv : ℝ) : QSF.U pOne tv = 1 := by
  norm_num [QSF.U, pOne]

open QSF in
/-- C2 (amended): all eleven returned sequences always have the same length
`numSamples p`; that common length equals `⌊t_end/dt⌋ + 1` whenever `t_end` is
an exact multiple of `dt` (in general `np.arange(0, t_end+dt, dt)` has
`⌈t_end/dt⌉ + 1` samples, which is `⌊t_end/dt⌋ + 2` for non-multiples); and the
concrete scenario `dt = 1e-4`, `t_end = 0.03` produces `N = 301` samples. -/
theorem C2_sample_counts (p : Params) (b : Bundle)
    (hok : quasi_steady_flap p = .ok b) (hdt : 0 < p.dt) (hte : 0 ≤ p.t_end) :
    (b.t.length = numSamples p ∧ b.L.length = numSamples p ∧
      b.D.length = numSamples p ∧ b.P.length = numSamples p ∧
      b.eta.length = numSamples p ∧ b.alpha.length = numSamples p ∧
      b.theta_deg.length = numSamples p ∧ b.x_pos.length = numSamples p ∧
      b.U.length = numSamples p ∧ b.CL.length = numSamples p ∧
      b.CD.length = numSamples p) ∧
    ((∃ k : ℕ, p.t_end = (k : ℝ) * p.dt) →
      (b.t.length : ℤ) = Int.floor (p.t_end / p.dt) + 1) ∧
    numSamples base_params = 301 := by
  have hb := ok_inv hok
  subst hb
  refine ⟨?_, ?_, ?_⟩
  · simp only [mkBundle, tgrid_length, map_tgrid_length]
    tauto
  · rintro ⟨k, hk⟩
    have hdt' : p.dt ≠ 0 := hdt.ne'
    have hdiv : p.t_end / p.dt = (k : ℝ) := by
      rw [hk, mul_div_cancel_right₀ _ hdt']
    have hceil : Int.ceil (p.t_end / p.dt) = (k : ℤ) := by
      rw [hdiv, Int.ceil_natCast]
    simp only [mkBundle, tgrid_length, numSamples_val p hdt hte, hceil, hdiv,
      Int.floor_natCast, Int.toNat_natCast, Int.ceil_natCast]
    push_cast
    ring
  · have h : Int.toNat 301 = 301 := rfl
    norm_num [numSamples, base_params, h]

/-- Witness for C2 at `pOne` (where `t_end = 0 = 0 * dt`). -/
theorem C2_sample_counts_witness :
    ((QSF.mkBundle pOne).t.length : ℤ) =
      Int.floor (pOne.t_end / pOne.dt) + 1 := by
  have h := C2_sample_counts pOne (QSF.mkBundle pOne) pOne_ok
    (by norm_num [pOne]) (by norm_num [pOne])
  exact h.2.1 ⟨0, by norm_num [pOne]⟩

theorem pGrid_ok : QSF.quasi_steady_flap pGrid = .ok (QSF.mkBundle pGrid) := by
  have hAR : QSF.AR pGrid = 1 := by norm_num [QSF.AR, pGrid, pOne]
  refine QSF.qsf_ok ?_ ?_ ?_ ?_
  · norm_num [pGrid, pOne]
  · rw [hAR, mul_one]; exact Real.pi_ne_zero
  · rw [hAR, mul_one, mul_div_assoc, div_self Real.pi_ne_zero]
    norm_num
  · norm_num [pGrid, pOne]

theorem pGrid_numSamples : QSF.numSamples pGrid = 3 := by
  have h : Int.ceil ((5 : ℝ) / 2) = 3 := by
    rw [Int.ceil_eq_iff]
    norm_num
  have h3 : Int.toNat 3 = 3 := rfl
  norm_num [QSF.numSamples, pGrid, pOne, h, h3]

/-- Counterexample to C2 as stated: for `dt = 2 > 0`, `t_end = 3 ≥ 0` the grid
has 3 samples, not `⌊t_end/dt⌋ + 1 = 2`. -/
theorem C2_counterexample :
    QSF.quasi_steady_flap pGrid = .ok (QSF.mkBundle pGrid) ∧
    0 < pGrid.dt ∧ 0 ≤ pGrid.t_end ∧
    ((QSF.mkBundle pGrid).t.length : ℤ) ≠
      Int.floor (pGrid.t_end / pGrid.dt) + 1 := by
  refine ⟨pGrid_ok, by norm_num [pGrid, pOne], by norm_num [pGrid, pOne], ?_⟩
  rw [QSF.mkBundle, QSF.tgrid_length, pGrid_numSamples]
  norm_num [pGrid, pOne]

open QSF in
/-- C3 (amended): the grid starts at `t[0] = 0`; the last entry equals `t_end`
when `t_end` is an exact multiple of `dt`, and in general lies in
`[t_end, t_end + dt)` — `np.arange(0, t_end + dt, dt)` overshoots `t_end`
when it is not an exact multiple of `dt`. -/
theorem C3_grid_endpoints (p : Params) (b : Bundle)
    (hok : quasi_steady_flap p = .ok b) (hdt : 0 < p.dt) (hte : 0 ≤ p.t_end) :
    b.t.getD 0 0 = 0 ∧
    p.t_end ≤ b.t.getD (b.t.length - 1) 0 ∧
    b.t.getD (b.t.length - 1) 0 < p.t_end + p.dt ∧
    ((∃ k : ℕ, p.t_end = (k : ℝ) * p.dt) →
      b.t.getD (b.t.length - 1) 0 = p.t_end) := by
  have hb := ok_inv hok
  subst hb
  have hm0 : (0 : ℤ) ≤ Int.ceil (p.t_end / p.dt) :=
    Int.ceil_nonneg (div_nonneg hte hdt.le)
  have hcast : (((Int.ceil (p.t_end / p.dt)).toNat : ℝ)) =
      ((Int.ceil (p.t_end / p.dt) : ℤ) : ℝ) := by
    rw_mod_cast [Int.toNat_of_nonneg hm0]
  have hlast := tgrid_last p hdt hte
  refine ⟨?_, ?_, ?_, ?_⟩
  · have h0 := tgrid_getD (numSamples_pos p hdt hte)
    simpa using h0
  · rw [mkBundle, hlast, hcast]
    have hle : p.t_end / p.dt ≤ ((Int.ceil (p.t_end / p.dt) : ℤ) : ℝ) :=
      Int.le_ceil _
    calc p.t_end = (p.t_end / p.dt) * p.dt := by
          rw [div_mul_cancel₀ _ hdt.ne']
      _ ≤ ((Int.ceil (p.t_end / p.dt) : ℤ) : ℝ) * p.dt :=
          mul_le_mul_of_nonneg_right hle hdt.le
  · rw [mkBundle, hlast, hcast]
    have hlt : ((Int.ceil (p.t_end / p.dt) : ℤ) : ℝ) < p.t_end / p.dt + 1 :=
      Int.ceil_lt_add_one _
    calc ((Int.ceil (p.t_end / p.dt) : ℤ) : ℝ) * p.dt
        < (p.t_end / p.dt + 1) * p.dt := mul_lt_mul_of_pos_right hlt hdt
      _ = p.t_end + p.dt := by
          rw [add_mul, one_mul, div_mul_cancel₀ _ hdt.ne']
  · rintro ⟨k, hk⟩
    have hdiv : p.t_end / p.dt = (k : ℝ) := by
      rw [hk, mul_div_cancel_right₀ _ hdt.ne']
    rw [mkBundle, hlast, hdiv, Int.ceil_natCast, Int.toNat_natCast, ← hk]

/-- Witness for C3 at `pOne` (where `t_end = 0 = 0 * dt`). -/
theorem C3_grid_endpoints_witness :
    (QSF.mkBundle pOne).t.getD ((QSF.mkBundle pOne).t.length - 1) 0 =
      pOne.t_end :=
  (C3_grid_endpoints pOne (QSF.mkBundle pOne) pOne_ok
      (by norm_num [pOne]) (by norm_num [pOne])).2.2.2
    ⟨0, by norm_num [pOne]⟩

/-- Counterexample to C3 as stated: for `dt = 2 > 0`, `t_end = 3 ≥ 0` the last
grid entry is `4`, not the requested endpoint `3`. -/
theorem C3_counterexample :
    QSF.quasi_steady_flap pGrid = .ok (QSF.mkBundle pGrid) ∧
    0 < pGrid.dt ∧ 0 ≤ pGrid.t_end ∧
    (QSF.mkBundle pGrid).t.getD ((QSF.mkBundle pGrid).t.length - 1) 0 ≠
      pGrid.t_end := by
  refine ⟨pGrid_ok, by norm_num [pGrid, pOne], by norm_num [pGrid, pOne], ?_⟩
  have hlt : (2 : ℕ) < QSF.numSamples pGrid := by rw [pGrid_numSamples]; omega
  have hget := QSF.tgrid_getD hlt
  rw [QSF.mkBundle, QSF.tgrid_length, pGrid_numSamples]
  show (QSF.tgrid pGrid).getD (3 - 1) 0 ≠ pGrid.t_end
  rw [show (3 - 1 : ℕ) = 2 from rfl, hget]
  norm_num [pGrid, pOne]

open QSF in
/-- C4 (amended): `c = 0` raises a division error before any output; so do
`S = 0` (via `2π/(π·AR)`) and a vanishing lift-slope denominator; `dt = 0`
raises inside the grid construction; but any nonzero `dt` — including
`dt < 0`, for which the claim demanded an error — produces a full bundle with
no error. -/
theorem C4_failure_modes (p : Params) :
    (p.c = 0 → quasi_steady_flap p = .error .zeroDivisionError) ∧
    (p.c ≠ 0 → (Real.pi * AR p = 0 ↔ p.S = 0)) ∧
    (p.c ≠ 0 → Real.pi * AR p ≠ 0 →
      1 + 2 * Real.pi / (Real.pi * AR p) ≠ 0 → p.dt = 0 →
      quasi_steady_flap p = .error .zeroDivisionError) ∧
    (p.c ≠ 0 → Real.pi * AR p ≠ 0 →
      1 + 2 * Real.pi / (Real.pi * AR p) ≠ 0 → p.dt ≠ 0 →
      quasi_steady_flap p = .ok (mkBundle p)) := by
  refine ⟨?_, ?_, ?_, ?_⟩
  · intro hc
    unfold quasi_steady_flap
    simp [hc]
  · intro hc
    simp [AR, div_eq_zero_iff, hc, Real.pi_ne_zero]
  · intro hc hs hd hdt
    unfold quasi_steady_flap
    simp [hc, hs, hd, hdt]
  · intro hc hs hd hdt
    exact qsf_ok hc hs hd hdt

theorem C4_failure_modes_witness :
    QSF.quasi_steady_flap pZeroC = .error .zeroDivisionError :=
  (C4_failure_modes pZeroC).1 (by norm_num [pZeroC, pOne])

/-- Counterexample to C4 as stated: `dt = -1 ≤ 0` does not raise; a bundle is
returned (here a one-sample bundle, since `np.arange(0, t_end + dt, dt)` with a
negative step and `t_end + dt < 0` still yields samples). -/
theorem C4_counterexample :
    pNegDt.dt ≤ 0 ∧
    QSF.quasi_steady_flap pNegDt = .ok (QSF.mkBundle pNegDt) := by
  constructor
  · norm_num [pNegDt, pOne]
  · have hAR : QSF.AR pNegDt = 1 := by norm_num [QSF.AR, pNegDt, pOne]
    refine QSF.qsf_ok ?_ ?_ ?_ ?_
    · norm_num [pNegDt, pOne]
    · rw [hAR, mul_one]; exact Real.pi_ne_zero
    · rw [hAR, mul_one, mul_div_assoc, div_self Real.pi_ne_zero]
      norm_num
    · norm_num [pNegDt, pOne]

/-- Parameters with unit chord and area evaluate successfully for any nonzero
time step. -/
theorem unit_ok (p : Params) (hc : p.c = 1) (hS : p.S = 1) (hdt : p.dt ≠ 0) :
    QSF.quasi_steady_flap p = .ok (QSF.mkBundle p) := by
  have hAR : QSF.AR p = 1 := by rw [QSF.AR, hc, hS]; norm_num
  refine QSF.qsf_ok (by rw [hc]; norm_num) ?_ ?_ hdt
  · rw [hAR, mul_one]; exact Real.pi_ne_zero
  · rw [hAR, mul_one, mul_div_assoc, div_self Real.pi_ne_zero]
    norm_num

open QSF in
/-- C6: in every evaluation, exactly the samples where `P[i] = D[i]·U[i]` is
exactly zero get `P[i]` replaced by the floor `1e-12` (nonzero entries are
unchanged), and `eta[i] = (L[i]·U[i]) / P[i]` uses the floored `P`. -/
theorem C6_power_floor (p : Params) (b : Bundle)
    (hok : quasi_steady_flap p = .ok b) :
    ∀ i < numSamples p,
      (b.D.getD i 0 * b.U.getD i 0 = 0 → b.P.getD i 0 = 1e-12) ∧
      (b.D.getD i 0 * b.U.getD i 0 ≠ 0 →
        b.P.getD i 0 = b.D.getD i 0 * b.U.getD i 0) ∧
      b.eta.getD i 0 = b.L.getD i 0 * b.U.getD i 0 / b.P.getD i 0 := by
  have hb := ok_inv hok
  subst hb
  intro i hi
  simp only [mkBundle, seq_getD _ hi]
  refine ⟨?_, ?_, ?_⟩
  · intro h0
    rw [QSF.P, if_pos (by rw [P_raw]; exact h0)]
  · intro h0
    rw [QSF.P, if_neg (by rw [P_raw]; exact h0), P_raw]
  · rw [QSF.eta]

theorem pZeroU_U (tv : ℝ) : QSF.U pZeroU tv = 0 := by
  norm_num [QSF.U, pZeroU, pOne]

theorem pZeroU_numSamples : QSF.numSamples pZeroU = 1 := by
  norm_num [QSF.numSamples, pZeroU, pOne]

/-- Witness for C6 at `pZeroU`, where the floor substitution fires. -/
theorem C6_power_floor_witness :
    (QSF.mkBundle pZeroU).P.getD 0 0 = 1e-12 := by
  have hok : QSF.quasi_steady_flap pZeroU = .ok (QSF.mkBundle pZeroU) :=
    unit_ok pZeroU (by norm_num [pZeroU, pOne]) (by norm_num [pZeroU, pOne])
      (by norm_num [pZeroU, pOne])
  have hi : 0 < QSF.numSamples pZeroU := by rw [pZeroU_numSamples]; omega
  refine (C6_power_floor pZeroU (QSF.mkBundle pZeroU) hok 0 hi).1 ?_
  have hU := QSF.seq_getD (QSF.U pZeroU) hi
  rw [QSF.mkBundle]
  rw [hU]
  rw [show ((0 : ℕ) : ℝ) * pZeroU.dt = 0 by norm_num, pZeroU_U, mul_zero]

open QSF in
/-- C7 (amended): whenever `pitch_amp ≥ 0`, every sample of `alpha` lies in
`[0, pitch_amp]`, and `theta_deg[i] = alpha[i]·(180/π)` at every index — for
negative `pitch_amp` the interval `[0, pitch_amp]` is empty while `alpha`
ranges in `[pitch_amp, 0]`, so the unrestricted claim fails. -/
theorem C7_alpha_range (p : Params) (b : Bundle)
    (hok : quasi_steady_flap p = .ok b) :
    ∀ i < numSamples p,
      (0 ≤ p.pitch_amp → b.alpha.getD i 0 ∈ Set.Icc 0 p.pitch_amp) ∧
      b.theta_deg.getD i 0 = b.alpha.getD i 0 * (180 / Real.pi) := by
  have hb := ok_inv hok
  subst hb
  intro i hi
  simp only [mkBundle, seq_getD _ hi]
  constructor
  · intro hpa
    rw [QSF.alpha, Set.mem_Icc]
    have hs1 : Real.sin (omega p * ((i : ℝ) * p.dt) + p.pitch_phase) ≤ 1 :=
      Real.sin_le_one _
    have hs2 : -1 ≤ Real.sin (omega p * ((i : ℝ) * p.dt) + p.pitch_phase) :=
      Real.neg_one_le_sin _
    constructor
    · have := mul_nonneg hpa (by linarith :
        (0 : ℝ) ≤ Real.sin (omega p * ((i : ℝ) * p.dt) + p.pitch_phase) + 1)
      linarith
    · have := mul_nonneg hpa (by linarith :
        (0 : ℝ) ≤ 1 - Real.sin (omega p * ((i : ℝ) * p.dt) + p.pitch_phase))
      linarith
  · rw [theta_deg]

/-- Witness for C7 at `pOne` (with `pitch_amp = 0 ≥ 0`), sample 0. -/
theorem C7_alpha_range_witness :
    (QSF.mkBundle pOne).alpha.getD 0 0 ∈ Set.Icc 0 pOne.pitch_amp :=
  ((C7_alpha_range pOne (QSF.mkBundle pOne) pOne_ok 0
      (by rw [pOne_numSamples]; omega)).1) (by norm_num [pOne])

/-- Counterexample to C7 as stated: with `pitch_amp = -1` the first `alpha`
sample is `-1/2`, which does not lie in the (empty) interval
`[0, pitch_amp] = [0, -1]`. -/
theorem C7_counterexample :
    QSF.quasi_steady_flap pNegPitch = .ok (QSF.mkBundle pNegPitch) ∧
    0 < QSF.numSamples pNegPitch ∧
    (QSF.mkBundle pNegPitch).alpha.getD 0 0 ∉
      Set.Icc 0 pNegPitch.pitch_amp := by
  have hN : QSF.numSamples pNegPitch = 1 := by
    norm_num [QSF.numSamples, pNegPitch, pOne]
  have hi : 0 < QSF.numSamples pNegPitch := by omega
  refine ⟨unit_ok pNegPitch (by norm_num [pNegPitch, pOne])
    (by norm_num [pNegPitch, pOne]) (by norm_num [pNegPitch, pOne]), hi, ?_⟩
  have halpha := QSF.seq_getD (QSF.alpha pNegPitch) hi
  rw [QSF.mkBundle, halpha]
  norm_num [QSF.alpha, QSF.omega, pNegPitch, pOne]

/-- Any parameter set sharing the baseline chord and area evaluates
successfully for any nonzero time step. -/
theorem baseLike_ok (p : Params) (hc : p.c = 0.004) (hS : p.S = 2e-4)
    (hdt : p.dt ≠ 0) : QSF.quasi_steady_flap p = .ok (QSF.mkBundle p) := by
  have hAR : QSF.AR p = 12.5 := by rw [QSF.AR, hc, hS]; norm_num
  refine QSF.qsf_ok (by rw [hc]; norm_num) ?_ ?_ hdt
  · rw [hAR]
    exact mul_ne_zero Real.pi_ne_zero (by norm_num)
  · rw [hAR, mul_comm 2 Real.pi, mul_div_mul_left _ _ Real.pi_ne_zero]
    norm_num

open QSF in
/-- C8 (amended): the sweep driver never rejects an axis identifier — every
identifier other than `"pitch"` (including unknown ones) is silently handled
by the frequency branch, performing five core evaluations. -/
theorem C8_no_axis_rejection (r : SweepStepsRequest)
    (h : r.sweep_type ≠ "pitch") :
    (sweep_steps r).length = 5 ∧
    ∀ v, sweepParamsFor r v =
      { base_params with
        stroke_amp := r.stroke_amp
        t_end := r.t_end
        pitch_amp := deg2rad r.pitch_deg
        f := v } := by
  constructor
  · simp [sweep_steps, sweepValues]
  · intro v
    rw [sweepParamsFor, if_neg h]

/-- Witness for C8 at the unknown-axis request `rStroke`. -/
theorem C8_no_axis_rejection_witness :
    (sweep_steps rStroke).length = 5 :=
  (C8_no_axis_rejection rStroke (by rw [rStroke]; decide)).1

/-- Counterexample to C8 as stated: the unknown axis `"stroke"` is not
rejected; all five core evaluations run and return bundles. -/
theorem C8_counterexample :
    rStroke.sweep_type ≠ "pitch" ∧ rStroke.sweep_type ≠ "frequency" ∧
    sweep_steps rStroke = (sweepValues rStroke).map
      (fun v => Except.ok (QSF.mkBundle (sweepParamsFor rStroke v))) := by
  refine ⟨by rw [rStroke]; decide, by rw [rStroke]; decide, ?_⟩
  rw [sweep_steps]
  refine List.map_congr_left (fun v _ => ?_)
  refine baseLike_ok (sweepParamsFor rStroke v) ?_ ?_ ?_
  · rw [sweepParamsFor, if_neg (by rw [rStroke]; decide)]
    norm_num [base_params]
  · rw [sweepParamsFor, if_neg (by rw [rStroke]; decide)]
    norm_num [base_params]
  · rw [sweepParamsFor, if_neg (by rw [rStroke]; decide)]
    norm_num [base_params]

theorem deg2rad_180 : deg2rad 180 = Real.pi := by
  rw [deg2rad]
  field_simp

theorem deg2rad_inj {v w : ℝ} (h : deg2rad v = deg2rad w) : v = w := by
  rw [deg2rad, deg2rad] at h
  exact mul_right_cancel₀ (div_ne_zero Real.pi_ne_zero (by norm_num)) h

theorem rPitch_phase (v : ℝ) :
    (sweepParamsFor rPitch v).pitch_phase = Real.pi := by
  rw [sweepParamsFor, if_pos (by rw [rPitch])]
  simpa [base_params] using deg2rad_180

theorem rPitch_pitch_amp (v : ℝ) :
    (sweepParamsFor rPitch v).pitch_amp = deg2rad v := by
  rw [sweepParamsFor, if_pos (by rw [rPitch])]

theorem rPitch_numSamples (v : ℝ) :
    QSF.numSamples (sweepParamsFor rPitch v) = 301 := by
  rw [sweepParamsFor, if_pos (by rw [rPitch])]
  have h : Int.toNat 301 = 301 := rfl
  norm_num [QSF.numSamples, base_params, rPitch, h]

theorem rPitch_ok (v : ℝ) :
    QSF.quasi_steady_flap (sweepParamsFor rPitch v) =
      .ok (QSF.mkBundle (sweepParamsFor rPitch v)) := by
  refine baseLike_ok _ ?_ ?_ ?_ <;>
    (rw [sweepParamsFor, if_pos (by rw [rPitch])]; norm_num [base_params])

/-- With `pitch_phase = π` the first `alpha` sample is `pitch_amp / 2`. -/
theorem alpha_head (p : Params) (hN : 0 < QSF.numSamples p)
    (hph : p.pitch_phase = Real.pi) :
    (QSF.mkBundle p).alpha.getD 0 0 = p.pitch_amp / 2 := by
  rw [QSF.mkBundle]
  rw [QSF.seq_getD _ hN, QSF.alpha, hph]
  norm_num [Real.sin_pi]

/-- Distinct pitch values give distinct bundles (their `alpha` heads differ). -/
theorem rPitch_bundle_ne {v w : ℝ} (hvw : v ≠ w) :
    QSF.mkBundle (sweepParamsFor rPitch v) ≠
      QSF.mkBundle (sweepParamsFor rPitch w) := by
  intro h
  have h0 := congrArg (fun b => b.alpha.getD 0 0) h
  dsimp only at h0
  rw [alpha_head (sweepParamsFor rPitch v) (by rw [rPitch_numSamples]; omega)
      (rPitch_phase v),
    alpha_head (sweepParamsFor rPitch w) (by rw [rPitch_numSamples]; omega)
      (rPitch_phase w), rPitch_pitch_amp, rPitch_pitch_amp] at h0
  exact hvw (deg2rad_inj (by linarith))

open QSF in
/-- C9: every sweep evaluates the core at the five points
`base − 2·step, base − step, base, base + step, base + 2·step` in order, and
the concrete pitch sweep with base 45 and step 15 evaluates pitch amplitudes
of exactly 15, 30, 45, 60, 75 degrees, each yielding a distinct bundle. -/
theorem C9_sweep_five_points :
    (∀ r : SweepStepsRequest,
      sweepValues r = [r.base - 2 * r.step, r.base - r.step, r.base,
        r.base + r.step, r.base + 2 * r.step] ∧
      sweep_steps r =
        (sweepValues r).map
          (fun v => quasi_steady_flap (sweepParamsFor r v))) ∧
    sweepValues rPitch = [15, 30, 45, 60, 75] ∧
    (sweepValues rPitch).map (fun v => (sweepParamsFor rPitch v).pitch_amp) =
      [deg2rad 15, deg2rad 30, deg2rad 45, deg2rad 60, deg2rad 75] ∧
    sweep_steps rPitch = (sweepValues rPitch).map
      (fun v => Except.ok (QSF.mkBundle (sweepParamsFor rPitch v))) ∧
    List.Pairwise (fun a b => a ≠ b)
      ((sweepValues rPitch).map
        (fun v => QSF.mkBundle (sweepParamsFor rPitch v))) := by
  have hvals : sweepValues rPitch = [15, 30, 45, 60, 75] := by
    rw [sweepValues]
    norm_num [rPitch]
  refine ⟨fun r => ⟨rfl, rfl⟩, hvals, ?_, ?_, ?_⟩
  · rw [hvals]
    simp only [List.map_cons, List.map_nil, rPitch_pitch_amp]
  · rw [sweep_steps]
    exact List.map_congr_left (fun v _ => rPitch_ok v)
  · rw [List.pairwise_map]
    have hp : List.Pairwise (fun a b : ℝ => a ≠ b) (sweepValues rPitch) := by
      rw [hvals]
      norm_num [List.pairwise_cons]
    exact hp.imp (fun hab => rPitch_bundle_ne hab)

/-- Witness for C1 at `pOne`, sample 0. -/
theorem C1_force_and_coefficient_formulas_witness :
    (QSF.mkBundle pOne).D.getD 0 0 =
      0.5 * pOne.rho * ((QSF.mkBundle pOne).U.getD 0 0) ^ 2 * pOne.S *
        (pOne.CD0 + pOne.CD_alpha * ((QSF.mkBundle pOne).alpha.getD 0 0) ^ 2) := by
  have h := C1_force_and_coefficient_formulas pOne (QSF.mkBundle pOne) pOne_ok
    (by norm_num [pOne])
    (fun i _ => by rw [pOne_U]; norm_num)
    0 (by rw [pOne_numSamples]; norm_num)
  exact h.2.2


namespace FV

@[simp] theorem add_num (x y : ℝ) : add (num x) (num y) = num (x + y) := rfl

@[simp] theorem mul_num (x y : ℝ) : mul (num x) (num y) = num (x * y) := rfl

@[simp] theorem sinF_num (x : ℝ) : sinF (num x) = num (Real.sin x) := rfl

@[simp] theorem cosF_num (x : ℝ) : cosF (num x) = num (Real.cos x) := rfl

@[simp] theorem absF_num (x : ℝ) : absF (num x) = num |x| := rfl

@[simp] theorem sq_num (x : ℝ) : sq (num x) = num (x ^ 2) := rfl

@[simp] theorem rad2degF_num (x : ℝ) :
    rad2degF (num x) = num (x * (180 / Real.pi)) := rfl

theorem div_num_def (x y : ℝ) :
    div (num x) (num y) =
      if y = 0 then (if 0 < x then pinf else if x < 0 then ninf else nan)
      else num (x / y) := rfl

theorem mul_num_pinf_def (x : ℝ) : mul (num x) pinf = infSign x true := rfl

theorem floorF_num (x : ℝ) :
    floorF (num x) = if x = 0 then num 1e-12 else num x := rfl

theorem div_num (x : ℝ) {y : ℝ} (h : y ≠ 0) :
    div (num x) (num y) = num (x / y) := by
  rw [div_num_def, if_neg h]

theorem div_num_zero_pos {x : ℝ} (h : 0 < x) :
    div (num x) (num 0) = pinf := by
  rw [div_num_def, if_pos rfl, if_pos h]

theorem mul_num_pinf {x : ℝ} (h : 0 < x) : mul (num x) pinf = pinf := by
  rw [mul_num_pinf_def, infSign, if_pos h, if_pos rfl]

theorem pinf_mul_num_zero : mul pinf (num 0) = nan := by
  show infSign 0 true = nan
  rw [infSign]
  norm_num

theorem mul_any_nan (v : FV) : mul v nan = nan := by cases v <;> rfl

theorem nan_mul_any (v : FV) : mul nan v = nan := by cases v <;> rfl

theorem add_any_nan (v : FV) : add v nan = nan := by cases v <;> rfl

theorem nan_add_any (v : FV) : add nan v = nan := by cases v <;> rfl

theorem nan_div_any (v : FV) : div nan v = nan := by cases v <;> rfl

theorem floorF_num_zero : floorF (num 0) = num 1e-12 := by
  rw [floorF_num, if_pos rfl]

end FV

namespace NF

theorem t_eq (p : Params) (i : ℕ) : t p i = FV.num ((i : ℝ) * p.dt) := rfl

theorem x_pos_eq (p : Params) (i : ℕ) :
    x_pos p i = FV.num (QSF.x_pos p ((i : ℝ) * p.dt)) := rfl

theorem U_eq (p : Params) (i : ℕ) :
    U p i = FV.num (QSF.U p ((i : ℝ) * p.dt)) := rfl

theorem alpha_dot_eq (p : Params) (i : ℕ) :
    alpha_dot p i = FV.num (QSF.alpha_dot p ((i : ℝ) * p.dt)) := rfl

theorem alpha_ddot_eq (p : Params) (i : ℕ) :
    alpha_ddot p i = FV.num (QSF.alpha_ddot p ((i : ℝ) * p.dt)) := rfl

theorem alpha_eq (p : Params) (i : ℕ) :
    alpha p i = FV.num (QSF.alpha p ((i : ℝ) * p.dt)) := by
  show FV.div
    (FV.num (p.pitch_amp *
      (Real.sin (QSF.omega p * ((i : ℝ) * p.dt) + p.pitch_phase) + 1)))
    (FV.num 2) = _
  rw [FV.div_num _ (by norm_num : (2 : ℝ) ≠ 0), QSF.alpha]

theorem theta_deg_eq (p : Params) (i : ℕ) :
    theta_deg p i = FV.num (QSF.theta_deg p ((i : ℝ) * p.dt)) := by
  rw [theta_deg, alpha_eq, FV.rad2degF_num, QSF.theta_deg]

theorem CD_eq (p : Params) (i : ℕ) :
    CD p i = FV.num (QSF.CD p ((i : ℝ) * p.dt)) := by
  rw [CD, alpha_eq]
  simp only [FV.sq_num, FV.mul_num, FV.add_num]
  rw [QSF.CD]

theorem q_eq (p : Params) (i : ℕ) :
    q p i = FV.num (QSF.q p ((i : ℝ) * p.dt)) := by
  rw [q, U_eq]
  simp only [FV.sq_num, FV.mul_num]
  rw [QSF.q]

theorem D_eq (p : Params) (i : ℕ) :
    D p i = FV.num (QSF.D p ((i : ℝ) * p.dt)) := by
  rw [D, q_eq, CD_eq]
  simp only [FV.mul_num]
  rw [QSF.D]

theorem P_raw_eq (p : Params) (i : ℕ) :
    P_raw p i = FV.num (QSF.P_raw p ((i : ℝ) * p.dt)) := by
  rw [P_raw, D_eq, U_eq, FV.mul_num, QSF.P_raw]

theorem P_eq (p : Params) (i : ℕ) :
    P p i = FV.num (QSF.P p ((i : ℝ) * p.dt)) := by
  rw [P, P_raw_eq, FV.floorF_num, QSF.P]
  by_cases h : QSF.P_raw p ((i : ℝ) * p.dt) = 0
  · rw [if_pos h, if_pos h]
  · rw [if_neg h, if_neg h]

theorem S_d_eq (p : Params) (i : ℕ) :
    S_d p i = FV.num (QSF.S_d p ((i : ℝ) * p.dt)) := by
  rw [S_d, alpha_eq]
  simp only [FV.absF_num, FV.sinF_num, FV.sq_num, FV.mul_num, FV.add_num]
  rw [QSF.S_d]

theorem CL_trans_LEV_eq (p : Params) (i : ℕ) :
    CL_trans_LEV p i = FV.num (QSF.CL_trans_LEV p ((i : ℝ) * p.dt)) := by
  rw [CL_trans_LEV, CL_trans, alpha_eq, S_d_eq]
  simp only [FV.mul_num]
  rw [QSF.CL_trans_LEV, QSF.CL_trans]

theorem CL_rot_eq (p : Params) (i : ℕ)
    (hU : QSF.U p ((i : ℝ) * p.dt) ≠ 0) :
    CL_rot p i = FV.num (QSF.CL_rot p ((i : ℝ) * p.dt)) := by
  rw [CL_rot, U_eq, alpha_dot_eq, FV.div_num _ hU]
  simp only [FV.mul_num]
  rw [QSF.CL_rot]

theorem CL_total_eq (p : Params) (i : ℕ)
    (hU : QSF.U p ((i : ℝ) * p.dt) ≠ 0) :
    CL_total p i = FV.num (QSF.CL_total p ((i : ℝ) * p.dt)) := by
  rw [CL_total, CL_trans_LEV_eq, CL_rot_eq p i hU, FV.add_num, QSF.CL_total]

theorem L_eq (p : Params) (i : ℕ)
    (hU : QSF.U p ((i : ℝ) * p.dt) ≠ 0) :
    L p i = FV.num (QSF.L p ((i : ℝ) * p.dt)) := by
  rw [L, L_trans, L_rot, L_added, q_eq, CL_trans_LEV_eq, CL_rot_eq p i hU,
    alpha_ddot_eq]
  simp only [FV.mul_num, FV.add_num]
  rw [QSF.L, QSF.L_trans, QSF.L_rot, QSF.L_added]

theorem eta_eq (p : Params) (i : ℕ)
    (hU : QSF.U p ((i : ℝ) * p.dt) ≠ 0) :
    eta p i = FV.num (QSF.eta p ((i : ℝ) * p.dt)) := by
  have hP : QSF.P p ((i : ℝ) * p.dt) ≠ 0 := by
    rw [QSF.P]
    split_ifs with h
    · norm_num
    · exact h
  rw [eta, L_eq p i hU, U_eq, P_eq, FV.mul_num, FV.div_num _ hP, QSF.eta]

end NF

open QSF in
/-- C10: for every finite parameter set with `dt > 0`, the series `t`, `x_pos`,
`U`, `alpha`, `theta_deg`, `CD` (and also `D`) involve no grid-dependent
division and stay finite at every grid point even where `U[i] = 0`; only the
`CL`, `L`, `P`, `eta` stage can be touched by the unguarded `c/U` division. -/
theorem C10_grid_series_finite (p : Params) (_hdt : 0 < p.dt) :
    ∀ i < numSamples p,
      (NF.t p i).isFinite ∧ (NF.x_pos p i).isFinite ∧
      (NF.U p i).isFinite ∧ (NF.alpha p i).isFinite ∧
      (NF.theta_deg p i).isFinite ∧ (NF.CD p i).isFinite ∧
      (NF.D p i).isFinite := by
  intro i hi
  refine ⟨trivial, ?_, ?_, ?_, ?_, ?_, ?_⟩
  · rw [NF.x_pos_eq]; trivial
  · rw [NF.U_eq]; trivial
  · rw [NF.alpha_eq]; trivial
  · rw [NF.theta_deg_eq]; trivial
  · rw [NF.CD_eq]; trivial
  · rw [NF.D_eq]; trivial

/-- Witness for C10 at `pOne`, sample 0. -/
theorem C10_grid_series_finite_witness : (NF.U pOne 0).isFinite :=
  (C10_grid_series_finite pOne (by norm_num [pOne]) 0
    (by rw [pOne_numSamples]; omega)).2.2.1

open QSF in
/-- C5 (amended): the floored power series `P` contains no NaN or infinity for
any parameters, and `eta` is NaN/inf-free at every sample where `U ≠ 0`; at a
sample with `U = 0` the unguarded `c/U` division makes `eta` NaN, so the
unrestricted claim fails (see the counterexample). -/
theorem C5_power_efficiency_finite (p : Params) :
    ∀ i < numSamples p,
      (NF.P p i).isFinite ∧
      (QSF.U p ((i : ℝ) * p.dt) ≠ 0 → (NF.eta p i).isFinite) := by
  intro i hi
  refine ⟨?_, fun hU => ?_⟩
  · rw [NF.P_eq]; trivial
  · rw [NF.eta_eq p i hU]; trivial

/-- Witness for C5 at `pOne`, sample 0 (where `U = 1 ≠ 0`). -/
theorem C5_power_efficiency_finite_witness : (NF.eta pOne 0).isFinite :=
  (C5_power_efficiency_finite pOne 0 (by rw [pOne_numSamples]; omega)).2
    (by rw [pOne_U]; norm_num)

/-- Counterexample to C5 as stated: with `stroke_amp = 0` and `Uref = 0`
(valid parameters, accepted by the evaluation), `U ≡ 0` on the grid and the
`eta` sample at index 0 is NaN in IEEE/numpy semantics: `c/U = +inf`,
`inf · alpha_dot(0) = inf · 0 = NaN`, and NaN propagates into `eta`. -/
theorem C5_counterexample :
    QSF.quasi_steady_flap pZeroU = .ok (QSF.mkBundle pZeroU) ∧
    0 < QSF.numSamples pZeroU ∧
    NF.U pZeroU 0 = FV.num 0 ∧
    NF.eta pZeroU 0 = FV.nan := by
  have hU0 : NF.U pZeroU 0 = FV.num 0 := by
    rw [NF.U_eq, pZeroU_U]
  have had : NF.alpha_dot pZeroU 0 = FV.num 0 := by
    rw [NF.alpha_dot_eq]
    norm_num [QSF.alpha_dot, QSF.omega, pZeroU, pOne]
  have hcl : NF.CL_rot pZeroU 0 = FV.nan := by
    rw [NF.CL_rot, hU0, had]
    rw [show pZeroU.c = 1 from by norm_num [pZeroU, pOne]]
    rw [FV.div_num_zero_pos (by norm_num : (0 : ℝ) < 1)]
    rw [FV.mul_num, FV.mul_num_pinf (by positivity), FV.pinf_mul_num_zero]
  have hL : NF.L pZeroU 0 = FV.nan := by
    rw [NF.L, NF.L_rot, hcl, FV.mul_any_nan, FV.add_any_nan, FV.nan_add_any]
  refine ⟨unit_ok pZeroU (by norm_num [pZeroU, pOne]) (by norm_num [pZeroU, pOne])
    (by norm_num [pZeroU, pOne]), by rw [pZeroU_numSamples]; omega, hU0, ?_⟩
  rw [NF.eta, hL, FV.nan_mul_any, FV.nan_div_any]
